import Mathlib

/-!
# Points Ledger & Wallet Accounting Engine — shallow embedding

Shallow embedding of `src/services/wallet.service.ts` and
`src/controllers/wallet.controller.ts` of the wisereels backend.

Modelling conventions:
* Timestamps are `Int` milliseconds since the epoch (JS `Date.getTime()`,
  SQL timestamp arithmetic is exact, so no truncation is modelled).
* `uuidv4()` never collides in practice; fresh ids are modelled by a
  `next_id : Nat` counter bumped at every insert.
* JS `Math.floor((d / 600) * rate)` on non-negative integers is embedded with
  exact (rational) arithmetic as natural-number division `d * rate / 600`.
* The Redis read-through cache in `getWallet` stores exactly the row just read
  from the database and is invalidated on every wallet write, so in the
  sequential semantics modelled here every read returns the authoritative
  wallet row; `getWallet` is therefore embedded as the database lookup.
* Database tables are lists of rows (in insertion order); the `wallet` and
  `users` tables, keyed by `user_id`, are embedded as functions
  `Nat → Option row`.  SQL `UPDATE ... WHERE user_id = $n` on a missing row
  is a no-op, which `Option.map` reproduces.
-/

namespace WiseReels

/-- Content categories appearing in the `EARNING_RATES` table of
`wallet.service.ts`; `OTHER` stands for any category string that is not a key
of the table. -/
inductive Category where
  | FINANCE
  | HEALTH
  | FITNESS
  | EDUCATION
  | ENTERTAINMENT
  | OTHER
deriving DecidableEq, Repr

/-- `EARNING_RATES[category as keyof typeof EARNING_RATES] || 100`
(points per 600 seconds watched). -/
def earningRate : Category → Nat
  | .FINANCE => 500
  | .HEALTH => 400
  | .FITNESS => 300
  | .EDUCATION => 200
  | .ENTERTAINMENT => 100
  | .OTHER => 100

/-- `transaction_type` column of `ledger_transactions`
(`LedgerTransaction.transaction_type` in `wallet.service.ts`). -/
inductive TxType where
  | EARN
  | PENDING
  | AVAILABLE
  | REDEEMED
  | REVERSED
  | EXPIRED
  | BONUS
deriving DecidableEq, Repr

/-- `status` column of `ledger_transactions`. -/
inductive TxStatus where
  | POSTED
  | PENDING_30D
  | AVAILABLE
  | EXPIRED
  | REDEEMED
deriving DecidableEq, Repr

/-- One row of the `ledger_transactions` table, as inserted by
`recordEarning` and `redeemPoints`.  Columns that `redeemPoints` leaves NULL
are `Option`s. -/
structure LedgerTransaction where
  id : Nat
  user_id : Nat
  video_id : Option Nat
  creator_id : Option Nat
  transaction_type : TxType
  points : Int
  category : Option Category
  watch_duration_seconds : Option Nat
  rate_per_10m : Option Nat
  status : TxStatus
  posted_at : Int
  available_at : Option Int
  expires_at : Option Int
  reason : String
  created_at : Int
deriving DecidableEq, Repr

/-- The JSON `metadata` attached by `recordWatchHeartbeat` to its insert into
the `transactions` table. -/
structure HbMetadata where
  base_points : Nat
  multiplier : Nat
  tier : String
  watch_duration_seconds : Nat
  category : Category
  heartbeat : Bool
deriving DecidableEq, Repr

/-- One row of the `transactions` table (the table `recordWatchHeartbeat`
inserts into — distinct from `ledger_transactions`). -/
structure HbTransaction where
  id : Nat
  user_id : Nat
  txn_type : String
  amount : Int
  video_id : Nat
  created_at : Int
  metadata : HbMetadata
deriving DecidableEq, Repr

/-- `status` column of `redemption_requests`. -/
inductive RedemptionStatus where
  | PENDING
  | PROCESSING
  | SUCCESS
  | FAILED
deriving DecidableEq, Repr

/-- One row of the `redemption_requests` table, as inserted by
`redeemPoints`. -/
structure RedemptionRequest where
  id : Nat
  user_id : Nat
  amount_points : Int
  redemption_type : String
  status : RedemptionStatus
  created_at : Int
deriving DecidableEq, Repr

/-- One row of the `wallet` table (`Wallet` interface in
`wallet.service.ts`). -/
structure Wallet where
  user_id : Nat
  pending_points : Int
  available_points : Int
  total_earned : Int
  total_redeemed : Int
  updated_at : Int
deriving DecidableEq, Repr

/-- The relational store as the wallet engine addresses it: the four tables
touched by `wallet.service.ts` plus the `expert_status` column of `users`,
and the fresh-id counter standing in for `uuidv4`. -/
structure DBState where
  ledger_transactions : List LedgerTransaction
  transactions : List HbTransaction
  redemption_requests : List RedemptionRequest
  wallets : Nat → Option Wallet
  users : Nat → Option String
  next_id : Nat

/-- 30 days in milliseconds (`30 * 24 * 60 * 60 * 1000` in
`recordEarning` / `recordWatchHeartbeat`). -/
def HOLDING_PERIOD_MS : Int := 30 * 24 * 60 * 60 * 1000

/-- 90 days in milliseconds (`90 * 24 * 60 * 60 * 1000`). -/
def EXPIRY_WINDOW_MS : Int := 90 * 24 * 60 * 60 * 1000

/-- `Math.floor((watchDurationSeconds / 600) * ratePerTenMin)` with exact
arithmetic: `⌊d * rate / 600⌋` as natural-number division. -/
def basePointsFor (watchDurationSeconds ratePerTenMin : Nat) : Nat :=
  watchDurationSeconds * ratePerTenMin / 600

/-- The `multiplierMap[userResult.expert_status] || 1` lookup of
`recordWatchHeartbeat`. -/
def multiplierFor (expert_status : String) : Nat :=
  if expert_status = "verified" then 5
  else if expert_status = "pending" then 3
  else if expert_status = "none" then 1
  else 1

/-- `WalletService.recordEarning`: INSERT of one EARN/POSTED row into
`ledger_transactions` with `available_at = now + 30d`,
`expires_at = available_at + 90d`. -/
def recordEarning (s : DBState) (userId videoId creatorId : Nat) (points : Nat)
    (category : Category) (watchDurationSeconds ratePerTenMin : Nat)
    (now : Int) : DBState :=
  let availableAt := now + HOLDING_PERIOD_MS
  let expiresAt := availableAt + EXPIRY_WINDOW_MS
  { s with
    ledger_transactions := s.ledger_transactions ++
      [{ id := s.next_id
         user_id := userId
         video_id := some videoId
         creator_id := some creatorId
         transaction_type := TxType.EARN
         points := (points : Int)
         category := some category
         watch_duration_seconds := some watchDurationSeconds
         rate_per_10m := some ratePerTenMin
         status := TxStatus.POSTED
         posted_at := now
         available_at := some availableAt
         expires_at := some expiresAt
         reason := "Video watched"
         created_at := now }]
    next_id := s.next_id + 1 }

/-- `WalletService.updateWalletPending`:
`UPDATE wallet SET pending_points = pending_points + $1, updated_at = $2
WHERE user_id = $3` (a no-op when the row is missing), plus cache
invalidation (transparent here). -/
def updateWalletPending (s : DBState) (userId : Nat) (points : Int)
    (now : Int) : DBState :=
  { s with
    wallets := fun u =>
      if u = userId then
        (s.wallets u).map fun w =>
          { w with pending_points := w.pending_points + points, updated_at := now }
      else s.wallets u }

/-- `WalletService.recordWatchEvent`: reject watches under 5 seconds, compute
`points = Math.floor((d / 600) * rate)` (no tier multiplier on this path),
drop zero-point events, otherwise record the earning and bump the pending
balance. -/
def recordWatchEvent (s : DBState) (userId videoId creatorId : Nat)
    (watchDurationSeconds : Nat) (category : Category) (now : Int) : DBState :=
  if watchDurationSeconds < 5 then s
  else
    let ratePerTenMin := earningRate category
    let points := basePointsFor watchDurationSeconds ratePerTenMin
    if points = 0 then s
    else
      let s1 := recordEarning s userId videoId creatorId points category
        watchDurationSeconds ratePerTenMin now
      updateWalletPending s1 userId (points : Int) now

/-- The SELECT filter of `processPendingToAvailable`:
`status = 'POSTED' AND posted_at <= NOW() - INTERVAL '30 days'`. -/
def maturable (now : Int) (t : LedgerTransaction) : Bool :=
  t.status == TxStatus.POSTED && decide (t.posted_at ≤ now - HOLDING_PERIOD_MS)

/-- One iteration of the loop body of `processPendingToAvailable`:
`UPDATE ledger_transactions SET status = 'AVAILABLE' WHERE id = $2`, then
`UPDATE wallet SET available_points = available_points + p,
pending_points = pending_points - p WHERE user_id = $3`. -/
def matureOne (now : Int) (s : DBState) (tr : LedgerTransaction) : DBState :=
  { s with
    ledger_transactions := s.ledger_transactions.map fun t =>
      if t.id = tr.id then { t with status := TxStatus.AVAILABLE } else t
    wallets := fun u =>
      if u = tr.user_id then
        (s.wallets u).map fun w =>
          { w with
            available_points := w.available_points + tr.points
            pending_points := w.pending_points - tr.points
            updated_at := now }
      else s.wallets u }

/-- `WalletService.processPendingToAvailable`: SELECT the maturable rows, then
run the loop body over each.  The TypeScript function returns
`Promise<void>` — no count is returned, the number of processed rows is only
logged. -/
def processPendingToAvailable (s : DBState) (now : Int) : DBState :=
  (s.ledger_transactions.filter (maturable now)).foldl (matureOne now) s

/-- The value `recordWatchHeartbeat` resolves with. -/
structure HeartbeatResult where
  pendingPoints : Int
  availablePoints : Int
  pointsEarned : Int
  multiplier : Nat
deriving DecidableEq, Repr

/-- `WalletService.recordWatchHeartbeat`: look up `expert_status`, compute
`basePoints = Math.floor((d / 600) * rate)` and
`pointsWithMultiplier = Math.floor(basePoints * tierMultiplier)` (exact, both
factors integral); when positive, INSERT one row into the `transactions`
table (not `ledger_transactions`) and bump `wallet.pending_points`; finally
re-read the wallet.  There is no minimum-duration check on this path.
Returns the (possibly updated) state together with the result or the thrown
error message. -/
def recordWatchHeartbeat (s : DBState) (userId videoId _creatorId : Nat)
    (watchDurationSeconds : Nat) (category : Category) (now : Int) :
    DBState × Except String HeartbeatResult :=
  match s.users userId with
  | none => (s, Except.error "User not found")
  | some expert_status =>
    let tierMultiplier := multiplierFor expert_status
    let ratePerTenMin := earningRate category
    let basePoints := basePointsFor watchDurationSeconds ratePerTenMin
    let pointsWithMultiplier := basePoints * tierMultiplier
    let s1 :=
      if 0 < pointsWithMultiplier then
        let inserted :=
          { s with
            transactions := s.transactions ++
              [{ id := s.next_id
                 user_id := userId
                 txn_type := "earn"
                 amount := (pointsWithMultiplier : Int)
                 video_id := videoId
                 created_at := now
                 metadata :=
                   { base_points := basePoints
                     multiplier := tierMultiplier
                     tier := expert_status
                     watch_duration_seconds := watchDurationSeconds
                     category := category
                     heartbeat := true } }]
            next_id := s.next_id + 1 }
        updateWalletPending inserted userId (pointsWithMultiplier : Int) now
      else s
    match s1.wallets userId with
    | none => (s1, Except.error "Failed to fetch updated wallet")
    | some wallet =>
      (s1, Except.ok
        { pendingPoints := wallet.pending_points
          availablePoints := wallet.available_points
          pointsEarned := (pointsWithMultiplier : Int)
          multiplier := tierMultiplier })

/-- The read-and-check prefix of `WalletService.redeemPoints`:
`getWallet`, then `if (!wallet || wallet.available_points < pointsToRedeem)
throw`.  No write happens in this phase. -/
def redeemBalanceCheck (s : DBState) (userId : Nat) (pointsToRedeem : Int) : Bool :=
  match s.wallets userId with
  | none => false
  | some wallet => !decide (wallet.available_points < pointsToRedeem)

/-- The write suffix of `WalletService.redeemPoints`, run unconditionally
once the check has passed: INSERT the PENDING `redemption_requests` row
(`redemption_type` hard-coded to `'UPI'`), debit
`wallet.available_points`, and INSERT the REDEEMED `ledger_transactions` row
of `-pointsToRedeem`. -/
def redeemWritePhase (s : DBState) (userId : Nat) (pointsToRedeem : Int)
    (now : Int) : DBState :=
  let s1 : DBState :=
    { s with
      redemption_requests := s.redemption_requests ++
        [{ id := s.next_id
           user_id := userId
           amount_points := pointsToRedeem
           redemption_type := "UPI"
           status := RedemptionStatus.PENDING
           created_at := now }]
      next_id := s.next_id + 1 }
  let s2 : DBState :=
    { s1 with
      wallets := fun u =>
        if u = userId then
          (s1.wallets u).map fun w =>
            { w with
              available_points := w.available_points - pointsToRedeem
              updated_at := now }
        else s1.wallets u }
  { s2 with
    ledger_transactions := s2.ledger_transactions ++
      [{ id := s2.next_id
         user_id := userId
         video_id := none
         creator_id := none
         transaction_type := TxType.REDEEMED
         points := -pointsToRedeem
         category := none
         watch_duration_seconds := none
         rate_per_10m := none
         status := TxStatus.REDEEMED
         posted_at := now
         available_at := none
         expires_at := none
         reason := "Redemption request"
         created_at := now }]
    next_id := s2.next_id + 1 }

/-- `WalletService.redeemPoints`: balance check, then the three writes; on
success resolves with the new redemption id.  On failure the state is
untouched (the throw happens before any write). -/
def redeemPoints (s : DBState) (userId : Nat) (pointsToRedeem : Int)
    (now : Int) : DBState × Except String Nat :=
  match s.wallets userId with
  | none => (s, Except.error "Insufficient points")
  | some wallet =>
    if wallet.available_points < pointsToRedeem then
      (s, Except.error "Insufficient points")
    else
      (redeemWritePhase s userId pointsToRedeem now, Except.ok s.next_id)

/-- The `data` object of the controller's success response for
`POST /redeem`. -/
structure RedeemResponseData where
  redemptionId : Nat
  pointsRedeemed : Int
  status : RedemptionStatus
deriving DecidableEq, Repr

/-- `wallet.controller.ts` `redeemPoints`: authentication guard, presence
check on `pointsToRedeem`/`redemptionType` (JS falsiness), the 100-point
minimum, then the service call; a service throw (not an `AppError`) surfaces
as the generic 500 response.  Errors are `(http status, message)`. -/
def redeemPointsController (s : DBState) (user : Option Nat)
    (pointsToRedeem : Int) (redemptionTypeGiven : Bool) (now : Int) :
    DBState × Except (Nat × String) RedeemResponseData :=
  match user with
  | none => (s, Except.error (401, "Authentication required"))
  | some userId =>
    if pointsToRedeem = 0 ∨ redemptionTypeGiven = false then
      (s, Except.error (400, "Points to redeem and redemption type are required"))
    else if pointsToRedeem < 100 then
      (s, Except.error (400, "Minimum redemption is 100 points"))
    else
      match redeemPoints s userId pointsToRedeem now with
      | (s1, Except.ok redemptionId) =>
        (s1, Except.ok
          { redemptionId := redemptionId
            pointsRedeemed := pointsToRedeem
            status := RedemptionStatus.PENDING })
      | (s1, Except.error _) =>
        (s1, Except.error (500, "Redemption failed"))

/-- The authenticated caller as the admin endpoint sees it. -/
structure AuthUser where
  userId : Nat
  role : String
deriving DecidableEq, Repr

/-- `wallet.controller.ts` `processPendingPoints` (`POST
admin/process-maturation`): admin guard, run the sweep, respond with a fixed
success message.  The response carries no processed count. -/
def processPendingPointsController (s : DBState) (user : Option AuthUser)
    (now : Int) : DBState × Except (Nat × String) String :=
  match user with
  | none => (s, Except.error (403, "Only admins can process pending points"))
  | some u =>
    if u.role = "ADMIN" then
      (processPendingToAvailable s now, Except.ok "Pending points processed successfully")
    else
      (s, Except.error (403, "Only admins can process pending points"))

/-- The core wallet operations, as invocable through the exposed API, for
trace-based properties.  `redeem` goes through the controller (which carries
the 100-point minimum). -/
inductive Op where
  | watchEvent (userId videoId creatorId : Nat) (watchDurationSeconds : Nat)
      (category : Category)
  | heartbeat (userId videoId creatorId : Nat) (watchDurationSeconds : Nat)
      (category : Category)
  | sweep
  | redeem (userId : Nat) (pointsToRedeem : Int) (redemptionTypeGiven : Bool)

/-- Effect of one operation on the store at time `now` (errors leave the
returned state, exactly as the implementation does). -/
def applyOp (s : DBState) (now : Int) : Op → DBState
  | Op.watchEvent u v c d cat => recordWatchEvent s u v c d cat now
  | Op.heartbeat u v c d cat => (recordWatchHeartbeat s u v c d cat now).1
  | Op.sweep => processPendingToAvailable s now
  | Op.redeem u p tg => (redeemPointsController s (some u) p tg now).1

/-- Run a timestamped sequence of operations. -/
def run (s : DBState) : List (Int × Op) → DBState
  | [] => s
  | (t, op) :: rest => run (applyOp s t op) rest

/-! ## Ledger aggregates and invariants -/

/-- Sum of `points` over a user's ledger rows in a given status. -/
def sumStatus (u : Nat) (st : TxStatus) (l : List LedgerTransaction) : Int :=
  ((l.filter fun t => t.user_id == u && t.status == st).map (·.points)).sum

/-- Sum of magnitudes of a user's REDEEMED ledger rows. -/
def redeemMag (u : Nat) (l : List LedgerTransaction) : Int :=
  ((l.filter fun t => t.user_id == u && t.status == TxStatus.REDEEMED).map
    fun t => (t.points.natAbs : Int)).sum

/-- Sum of `points` over a user's maturable rows (the amount one sweep run
moves from pending to available for that user). -/
def maturedSumU (now : Int) (u : Nat) (l : List LedgerTransaction) : Int :=
  ((l.filter fun t => t.user_id == u && maturable now t).map (·.points)).sum

/-- The spec's reconciliation law for one user: whenever the user has a
wallet row, its pending balance is the sum of the user's POSTED ledger rows
and its available balance is the sum of the AVAILABLE rows minus the
magnitudes of the REDEEMED debits. -/
def ReconciledFor (s : DBState) (u : Nat) : Prop :=
  ∀ w, s.wallets u = some w →
    w.pending_points = sumStatus u TxStatus.POSTED s.ledger_transactions ∧
    w.available_points =
      sumStatus u TxStatus.AVAILABLE s.ledger_transactions -
        redeemMag u s.ledger_transactions

/-- Primary-key discipline of `ledger_transactions`: ids are distinct and
below the fresh-id counter (uuids never collide). -/
def LedgerIdsOK (s : DBState) : Prop :=
  (s.ledger_transactions.map (·.id)).Nodup ∧
  ∀ t ∈ s.ledger_transactions, t.id < s.next_id

instance (s : DBState) (u : Nat) : Decidable (ReconciledFor s u) := by
  unfold ReconciledFor
  cases s.wallets u with
  | none => exact isTrue (fun w h => by simp at h)
  | some w =>
    by_cases h :
        w.pending_points = sumStatus u TxStatus.POSTED s.ledger_transactions ∧
        w.available_points =
          sumStatus u TxStatus.AVAILABLE s.ledger_transactions -
            redeemMag u s.ledger_transactions
    · exact isTrue (fun w' hw' => by cases hw'; exact h)
    · exact isFalse (fun hall => h (hall w rfl))

instance (s : DBState) : Decidable (LedgerIdsOK s) := by
  unfold LedgerIdsOK; infer_instance

/-! ## Anatomy of one maturation sweep -/

/-- Status flip applied to a row when some selected row shares its id. -/
def setAvailIfMatched (M : List LedgerTransaction) (t : LedgerTransaction) :
    LedgerTransaction :=
  if M.any (fun tr => tr.id == t.id) then { t with status := TxStatus.AVAILABLE } else t

/-- Points the selected rows `M` carry for user `u`. -/
def maturedPtsFor (M : List LedgerTransaction) (u : Nat) : Int :=
  ((M.filter fun tr => tr.user_id == u).map (·.points)).sum

theorem foldlMature_ledger (now : Int) :
    ∀ (M : List LedgerTransaction) (s : DBState),
      (M.foldl (matureOne now) s).ledger_transactions
        = s.ledger_transactions.map (setAvailIfMatched M) := by
  intro M
  induction M with
  | nil =>
    intro s
    rw [List.foldl_nil,
      show setAvailIfMatched [] = fun t => t from funext fun t => by
        simp [setAvailIfMatched]]
    simp
  | cons tr M ih =>
    intro s
    rw [List.foldl_cons, ih]
    show (s.ledger_transactions.map fun t =>
        if t.id = tr.id then { t with status := TxStatus.AVAILABLE } else t).map
        (setAvailIfMatched M) = _
    rw [List.map_map]
    apply List.map_congr_left
    intro a _
    by_cases h : a.id = tr.id
    · simp [setAvailIfMatched, h]
    · have h' : (tr.id == a.id) = false := by
        simp [Ne.symm h]
      simp [setAvailIfMatched, h, List.any_cons, h']

theorem foldlMature_transactions (now : Int) :
    ∀ (M : List LedgerTransaction) (s : DBState),
      (M.foldl (matureOne now) s).transactions = s.transactions := by
  intro M
  induction M with
  | nil => intro s; rfl
  | cons tr M ih => intro s; rw [List.foldl_cons, ih]; rfl

theorem foldlMature_redemptions (now : Int) :
    ∀ (M : List LedgerTransaction) (s : DBState),
      (M.foldl (matureOne now) s).redemption_requests = s.redemption_requests := by
  intro M
  induction M with
  | nil => intro s; rfl
  | cons tr M ih => intro s; rw [List.foldl_cons, ih]; rfl

theorem foldlMature_users (now : Int) :
    ∀ (M : List LedgerTransaction) (s : DBState),
      (M.foldl (matureOne now) s).users = s.users := by
  intro M
  induction M with
  | nil => intro s; rfl
  | cons tr M ih => intro s; rw [List.foldl_cons, ih]; rfl

theorem foldlMature_next_id (now : Int) :
    ∀ (M : List LedgerTransaction) (s : DBState),
      (M.foldl (matureOne now) s).next_id = s.next_id := by
  intro M
  induction M with
  | nil => intro s; rfl
  | cons tr M ih => intro s; rw [List.foldl_cons, ih]; rfl

theorem foldlMature_wallets (now : Int) :
    ∀ (M : List LedgerTransaction) (s : DBState) (u : Nat),
      ((s.wallets u = none → (M.foldl (matureOne now) s).wallets u = none) ∧
       ∀ w, s.wallets u = some w →
         ∃ w', (M.foldl (matureOne now) s).wallets u = some w' ∧
           w'.pending_points = w.pending_points - maturedPtsFor M u ∧
           w'.available_points = w.available_points + maturedPtsFor M u) := by
  intro M
  induction M with
  | nil =>
    intro s u
    refine ⟨fun h => h, fun w hw => ⟨w, hw, ?_, ?_⟩⟩ <;> simp [maturedPtsFor]
  | cons tr M ih =>
    intro s u
    constructor
    · intro h
      have h1 : (matureOne now s tr).wallets u = none := by
        by_cases hu : u = tr.user_id
        · subst hu; simp [matureOne, h]
        · simp [matureOne, hu, h]
      exact (ih (matureOne now s tr) u).1 h1
    · intro w hw
      by_cases hu : u = tr.user_id
      · subst hu
        have h1 : (matureOne now s tr).wallets tr.user_id = some
            { w with
              available_points := w.available_points + tr.points
              pending_points := w.pending_points - tr.points
              updated_at := now } := by
          simp [matureOne, hw]
        obtain ⟨w', hw', hp, ha⟩ := (ih (matureOne now s tr) tr.user_id).2 _ h1
        have hsum : maturedPtsFor (tr :: M) tr.user_id
            = tr.points + maturedPtsFor M tr.user_id := by
          simp [maturedPtsFor, List.filter_cons]
        refine ⟨w', hw', ?_, ?_⟩
        · rw [hp, hsum]; ring
        · rw [ha, hsum]; ring
      · have h1 : (matureOne now s tr).wallets u = some w := by
          simp [matureOne, hu, hw]
        obtain ⟨w', hw', hp, ha⟩ := (ih (matureOne now s tr) u).2 _ h1
        have hne : (tr.user_id == u) = false := by
          simp only [beq_eq_false_iff_ne, ne_eq]
          exact fun e => hu e.symm
        have hsum : maturedPtsFor (tr :: M) u = maturedPtsFor M u := by
          simp [maturedPtsFor, List.filter_cons, hne]
        exact ⟨w', hw', by rw [hp, hsum], by rw [ha, hsum]⟩

/-- After a sweep, no row is still maturable at the same instant. -/
theorem sweep_filter_nil (s : DBState) (now : Int) :
    (processPendingToAvailable s now).ledger_transactions.filter (maturable now) = [] := by
  apply List.filter_eq_nil_iff.mpr
  intro t' ht'
  rw [show processPendingToAvailable s now
      = (s.ledger_transactions.filter (maturable now)).foldl (matureOne now) s from rfl,
    foldlMature_ledger] at ht'
  obtain ⟨t, ht, rfl⟩ := List.mem_map.mp ht'
  by_cases hm : (s.ledger_transactions.filter (maturable now)).any (fun tr => tr.id == t.id)
  · simp [setAvailIfMatched, hm, maturable]
  · have hnot : maturable now t = false := by
      by_contra hmt
      have ht2 : t ∈ s.ledger_transactions.filter (maturable now) :=
        List.mem_filter.mpr ⟨ht, by simpa using hmt⟩
      exact hm (List.any_eq_true.mpr ⟨t, ht2, by simp⟩)
    simp [setAvailIfMatched, hm, hnot]

/-- Running the sweep twice at the same instant is the same as running it
once. -/
theorem sweep_idempotent (s : DBState) (now : Int) :
    processPendingToAvailable (processPendingToAvailable s now) now
      = processPendingToAvailable s now := by
  show ((processPendingToAvailable s now).ledger_transactions.filter
      (maturable now)).foldl (matureOne now) (processPendingToAvailable s now) = _
  rw [sweep_filter_nil]
  rfl

/-- What one sweep run does to a single row: flip maturable rows to
AVAILABLE, leave the rest alone. -/
def flipMatured (now : Int) (t : LedgerTransaction) : LedgerTransaction :=
  if maturable now t then { t with status := TxStatus.AVAILABLE } else t

theorem sumStatus_cons (u : Nat) (st : TxStatus) (x : LedgerTransaction)
    (l : List LedgerTransaction) :
    sumStatus u st (x :: l)
      = (if x.user_id = u ∧ x.status = st then x.points else 0) + sumStatus u st l := by
  simp only [sumStatus, List.filter_cons]
  by_cases h : x.user_id = u ∧ x.status = st
  · have hb : (x.user_id == u && x.status == st) = true := by simp [h.1, h.2]
    simp [hb, h]
  · have hb : (x.user_id == u && x.status == st) = false := by
      rcases not_and_or.mp h with h1 | h1 <;>
        simp [beq_eq_false_iff_ne.mpr h1]
    simp [hb, h]

theorem redeemMag_cons (u : Nat) (x : LedgerTransaction)
    (l : List LedgerTransaction) :
    redeemMag u (x :: l)
      = (if x.user_id = u ∧ x.status = TxStatus.REDEEMED then (x.points.natAbs : Int) else 0)
        + redeemMag u l := by
  simp only [redeemMag, List.filter_cons]
  by_cases h : x.user_id = u ∧ x.status = TxStatus.REDEEMED
  · have hb : (x.user_id == u && x.status == TxStatus.REDEEMED) = true := by
      simp [h.1, h.2]
    simp [hb, h]
  · have hb : (x.user_id == u && x.status == TxStatus.REDEEMED) = false := by
      rcases not_and_or.mp h with h1 | h1 <;>
        simp [beq_eq_false_iff_ne.mpr h1]
    simp [hb, h]

theorem maturedSumU_cons (now : Int) (u : Nat) (x : LedgerTransaction)
    (l : List LedgerTransaction) :
    maturedSumU now u (x :: l)
      = (if x.user_id = u ∧ maturable now x = true then x.points else 0)
        + maturedSumU now u l := by
  simp only [maturedSumU, List.filter_cons]
  by_cases h : x.user_id = u ∧ maturable now x = true
  · have hb : (x.user_id == u && maturable now x) = true := by simp [h.1, h.2]
    simp [hb, h]
  · have hb : (x.user_id == u && maturable now x) = false := by
      rcases not_and_or.mp h with h1 | h1
      · simp [beq_eq_false_iff_ne.mpr h1]
      · simp [Bool.eq_false_iff.mpr h1]
    simp [hb, h]

/-- Flipping the maturable rows moves exactly `maturedSumU` from the POSTED
aggregate to the AVAILABLE aggregate and leaves the REDEEMED magnitudes
alone. -/
theorem sums_after_flip (now : Int) (u : Nat) :
    ∀ l : List LedgerTransaction,
      sumStatus u TxStatus.POSTED (l.map (flipMatured now))
          = sumStatus u TxStatus.POSTED l - maturedSumU now u l ∧
      sumStatus u TxStatus.AVAILABLE (l.map (flipMatured now))
          = sumStatus u TxStatus.AVAILABLE l + maturedSumU now u l ∧
      redeemMag u (l.map (flipMatured now)) = redeemMag u l := by
  intro l
  induction l with
  | nil => simp [sumStatus, maturedSumU, redeemMag]
  | cons t l ih =>
    obtain ⟨ihp, iha, ihr⟩ := ih
    rw [List.map_cons, sumStatus_cons, sumStatus_cons, sumStatus_cons, sumStatus_cons,
      redeemMag_cons, redeemMag_cons, maturedSumU_cons, ihp, iha, ihr]
    by_cases hm : maturable now t
    · have hst : t.status = TxStatus.POSTED := by
        have h2 := hm
        simp only [maturable, Bool.and_eq_true, beq_iff_eq] at h2
        exact h2.1
      have hf : flipMatured now t = { t with status := TxStatus.AVAILABLE } := by
        simp [flipMatured, hm]
      refine ⟨?_, ?_, ?_⟩ <;> by_cases hu : t.user_id = u <;>
        simp [hf, hst, hu, hm] <;> ring
    · have hf : flipMatured now t = t := by simp [flipMatured, hm]
      refine ⟨?_, ?_, ?_⟩ <;> by_cases hu : t.user_id = u <;>
        simp [hf, hu, hm] <;> ring

/-- With distinct ids, matching a selected row's id means being that row, so
`setAvailIfMatched` over the selection coincides with `flipMatured`. -/
theorem setAvail_eq_flip (now : Int) (l : List LedgerTransaction)
    (hnd : (l.map (·.id)).Nodup) (t : LedgerTransaction) (ht : t ∈ l) :
    setAvailIfMatched (l.filter (maturable now)) t = flipMatured now t := by
  by_cases hm : maturable now t
  · have hin : t ∈ l.filter (maturable now) := List.mem_filter.mpr ⟨ht, hm⟩
    have hany : (l.filter (maturable now)).any (fun tr => tr.id == t.id) = true :=
      List.any_eq_true.mpr ⟨t, hin, by simp⟩
    simp [setAvailIfMatched, hany, flipMatured, hm]
  · have hany : (l.filter (maturable now)).any (fun tr => tr.id == t.id) = false := by
      by_contra h
      obtain ⟨tr, htr, hid⟩ := List.any_eq_true.mp (Bool.of_not_eq_false h)
      have htr_l : tr ∈ l := (List.mem_filter.mp htr).1
      have htr_m : maturable now tr = true := (List.mem_filter.mp htr).2
      have : tr = t :=
        List.inj_on_of_nodup_map hnd htr_l ht (by simpa using hid)
      rw [this] at htr_m
      exact hm htr_m
    simp [setAvailIfMatched, hany, flipMatured, hm]

/-- Under the primary-key discipline, one sweep run maps the ledger by
`flipMatured`. -/
theorem sweep_ledger_char (s : DBState) (now : Int)
    (hnd : (s.ledger_transactions.map (·.id)).Nodup) :
    (processPendingToAvailable s now).ledger_transactions
      = s.ledger_transactions.map (flipMatured now) := by
  rw [show processPendingToAvailable s now
      = (s.ledger_transactions.filter (maturable now)).foldl (matureOne now) s from rfl,
    foldlMature_ledger]
  exact List.map_congr_left fun t ht => setAvail_eq_flip now _ hnd t ht

/-- The per-user amount moved by the selected rows is `maturedSumU`. -/
theorem maturedPts_filter (now : Int) (u : Nat) (l : List LedgerTransaction) :
    maturedPtsFor (l.filter (maturable now)) u = maturedSumU now u l := by
  simp only [maturedPtsFor, maturedSumU, List.filter_filter]

/-- One sweep run preserves the reconciliation law for every user. -/
theorem sweep_preserves_reconciled (s : DBState) (now : Int)
    (hnd : (s.ledger_transactions.map (·.id)).Nodup) (u : Nat)
    (hr : ReconciledFor s u) : ReconciledFor (processPendingToAvailable s now) u := by
  intro w' hw'
  cases hcase : s.wallets u with
  | none =>
    have hnone : (processPendingToAvailable s now).wallets u = none :=
      (foldlMature_wallets now (s.ledger_transactions.filter (maturable now)) s u).1 hcase
    rw [hnone] at hw'
    cases hw'
  | some w =>
    obtain ⟨w2, hw2, hp, ha⟩ :=
      (foldlMature_wallets now (s.ledger_transactions.filter (maturable now)) s u).2 w hcase
    have hww : w' = w2 := by
      have := hw'.symm.trans hw2
      exact Option.some.inj this
    obtain ⟨hrp, hra⟩ := hr w hcase
    obtain ⟨hsp, hsa, hsr⟩ := sums_after_flip now u s.ledger_transactions
    rw [hww]
    constructor
    · rw [hp, sweep_ledger_char s now hnd, hsp, maturedPts_filter, hrp]
    · rw [ha, sweep_ledger_char s now hnd, hsa, hsr, maturedPts_filter, hra]
      ring

theorem sumStatus_append (u : Nat) (st : TxStatus) (l1 l2 : List LedgerTransaction) :
    sumStatus u st (l1 ++ l2) = sumStatus u st l1 + sumStatus u st l2 := by
  simp [sumStatus, List.filter_append]

theorem redeemMag_append (u : Nat) (l1 l2 : List LedgerTransaction) :
    redeemMag u (l1 ++ l2) = redeemMag u l1 + redeemMag u l2 := by
  simp [redeemMag, List.filter_append]

theorem sumStatus_nil (u : Nat) (st : TxStatus) : sumStatus u st [] = 0 := rfl

theorem redeemMag_nil (u : Nat) : redeemMag u [] = 0 := rfl

/-- Appending one fresh-id row keeps the primary-key discipline. -/
theorem idsOK_snoc (l : List LedgerTransaction) (e : LedgerTransaction) (n n' : Nat)
    (hnd : (l.map (·.id)).Nodup) (hb : ∀ t ∈ l, t.id < n)
    (hid : n ≤ e.id) (hlt : e.id < n') (hnn : n ≤ n') :
    ((l ++ [e]).map (·.id)).Nodup ∧ ∀ t ∈ l ++ [e], t.id < n' := by
  constructor
  · rw [List.map_append]
    refine List.nodup_append.mpr ⟨hnd, List.nodup_singleton _, ?_⟩
    intro a ha ha'
    obtain ⟨t, ht, rfl⟩ := List.mem_map.mp ha
    have h1 : t.id < n := hb t ht
    have h2 : t.id = e.id := by simpa using ha'
    omega
  · intro t ht
    rcases List.mem_append.mp ht with h | h
    · exact lt_of_lt_of_le (hb t h) hnn
    · have : t = e := by simpa using h
      rw [this]; exact hlt

/-- `recordWatchEvent` keeps the primary-key discipline and the
reconciliation law: the appended EARN row is POSTED and its points are
exactly what is added to the user's pending balance. -/
theorem watchEvent_preserves (s : DBState) (uid v c : Nat) (d : Nat)
    (cat : Category) (now : Int) (u0 : Nat)
    (hi : LedgerIdsOK s) (hr : ReconciledFor s u0) :
    LedgerIdsOK (recordWatchEvent s uid v c d cat now) ∧
    ReconciledFor (recordWatchEvent s uid v c d cat now) u0 := by
  by_cases h5 : d < 5
  · simpa [recordWatchEvent, h5] using ⟨hi, hr⟩
  · by_cases hp : basePointsFor d (earningRate cat) = 0
    · simpa [recordWatchEvent, h5, hp] using ⟨hi, hr⟩
    · have heq : recordWatchEvent s uid v c d cat now
          = updateWalletPending
              (recordEarning s uid v c (basePointsFor d (earningRate cat)) cat d
                (earningRate cat) now)
              uid ((basePointsFor d (earningRate cat) : Int)) now := by
        simp [recordWatchEvent, h5, hp]
      rw [heq]
      obtain ⟨hnd, hbound⟩ := hi
      constructor
      · exact idsOK_snoc s.ledger_transactions _ s.next_id (s.next_id + 1)
          hnd hbound (le_refl _) (Nat.lt_succ_self _) (Nat.le_succ _)
      · intro w' hw'
        have hled : (updateWalletPending
              (recordEarning s uid v c (basePointsFor d (earningRate cat)) cat d
                (earningRate cat) now)
              uid ((basePointsFor d (earningRate cat) : Int)) now).ledger_transactions
            = s.ledger_transactions ++
              [{ id := s.next_id
                 user_id := uid
                 video_id := some v
                 creator_id := some c
                 transaction_type := TxType.EARN
                 points := ((basePointsFor d (earningRate cat) : Int))
                 category := some cat
                 watch_duration_seconds := some d
                 rate_per_10m := some (earningRate cat)
                 status := TxStatus.POSTED
                 posted_at := now
                 available_at := some (now + HOLDING_PERIOD_MS)
                 expires_at := some (now + HOLDING_PERIOD_MS + EXPIRY_WINDOW_MS)
                 reason := "Video watched"
                 created_at := now }] := rfl
        rw [hled, sumStatus_append, sumStatus_append, redeemMag_append,
          sumStatus_cons, sumStatus_cons, redeemMag_cons, sumStatus_nil,
          sumStatus_nil, redeemMag_nil]
        by_cases hu : u0 = uid
        · subst hu
          cases hcw : s.wallets u0 with
          | none =>
            have : (updateWalletPending
                (recordEarning s u0 v c (basePointsFor d (earningRate cat)) cat d
                  (earningRate cat) now)
                u0 ((basePointsFor d (earningRate cat) : Int)) now).wallets u0 = none := by
              simp [updateWalletPending, recordEarning, hcw]
            rw [this] at hw'
            cases hw'
          | some w =>
            have hww : w' = { w with
                pending_points := w.pending_points + ((basePointsFor d (earningRate cat) : Int))
                updated_at := now } := by
              have : (updateWalletPending
                  (recordEarning s u0 v c (basePointsFor d (earningRate cat)) cat d
                    (earningRate cat) now)
                  u0 ((basePointsFor d (earningRate cat) : Int)) now).wallets u0
                  = some { w with
                      pending_points :=
                        w.pending_points + ((basePointsFor d (earningRate cat) : Int))
                      updated_at := now } := by
                simp [updateWalletPending, recordEarning, hcw]
              exact Option.some.inj (hw'.symm.trans this)
            obtain ⟨hrp, hra⟩ := hr w hcw
            rw [hww]
            constructor
            · simp only []
              rw [hrp]
              simp
            · simp only []
              rw [hra]
              simp
        · cases hcw : s.wallets u0 with
          | none =>
            have : (updateWalletPending
                (recordEarning s uid v c (basePointsFor d (earningRate cat)) cat d
                  (earningRate cat) now)
                uid ((basePointsFor d (earningRate cat) : Int)) now).wallets u0 = none := by
              simp [updateWalletPending, recordEarning, hu, hcw]
            rw [this] at hw'
            cases hw'
          | some w =>
            have hww : w' = w := by
              have : (updateWalletPending
                  (recordEarning s uid v c (basePointsFor d (earningRate cat)) cat d
                    (earningRate cat) now)
                  uid ((basePointsFor d (earningRate cat) : Int)) now).wallets u0
                  = some w := by
                simp [updateWalletPending, recordEarning, hu, hcw]
              exact Option.some.inj (hw'.symm.trans this)
            obtain ⟨hrp, hra⟩ := hr w hcw
            rw [hww]
            have hne2 : uid ≠ u0 := fun h => hu h.symm
            constructor
            · rw [hrp]; simp [hne2]
            · rw [hra]; simp [hne2]

/-- `redeemPoints` is literally the non-atomic sequence "balance check, then
unconditional writes": the check reads the wallet, and nothing re-validates
between the check and the writes. -/
theorem redeemPoints_split (s : DBState) (uid : Nat) (p : Int) (now : Int) :
    redeemPoints s uid p now
      = if redeemBalanceCheck s uid p then
          (redeemWritePhase s uid p now, Except.ok s.next_id)
        else (s, Except.error "Insufficient points") := by
  unfold redeemPoints redeemBalanceCheck
  cases s.wallets uid with
  | none => simp
  | some w => by_cases h : w.available_points < p <;> simp [h]

/-- The state the redeem endpoint leaves behind: the write phase when every
guard passes, the untouched input state otherwise. -/
theorem redeemCtrl_fst (s : DBState) (uid : Nat) (p : Int) (tg : Bool) (now : Int) :
    (redeemPointsController s (some uid) p tg now).1
      = if ¬(p = 0 ∨ tg = false) ∧ ¬(p < 100) ∧ redeemBalanceCheck s uid p = true then
          redeemWritePhase s uid p now
        else s := by
  unfold redeemPointsController
  by_cases h0 : p = 0 ∨ tg = false
  · simp [h0]
  · by_cases h1 : p < 100
    · simp [h0, h1]
    · by_cases hc : redeemBalanceCheck s uid p
      · simp [h0, h1, hc, redeemPoints_split]
      · simp [h0, h1, hc, redeemPoints_split]

theorem redeemWrite_ledger (s : DBState) (uid : Nat) (p : Int) (now : Int) :
    (redeemWritePhase s uid p now).ledger_transactions
      = s.ledger_transactions ++
        [{ id := s.next_id + 1
           user_id := uid
           video_id := none
           creator_id := none
           transaction_type := TxType.REDEEMED
           points := -p
           category := none
           watch_duration_seconds := none
           rate_per_10m := none
           status := TxStatus.REDEEMED
           posted_at := now
           available_at := none
           expires_at := none
           reason := "Redemption request"
           created_at := now }] := rfl

/-- The redeem endpoint keeps the primary-key discipline and the
reconciliation law: on success the REDEEM debit row's magnitude is exactly
what is removed from the available balance. -/
theorem redeemCtrl_preserves (s : DBState) (uid : Nat) (p : Int) (tg : Bool)
    (now : Int) (u0 : Nat)
    (hi : LedgerIdsOK s) (hr : ReconciledFor s u0) :
    LedgerIdsOK (redeemPointsController s (some uid) p tg now).1 ∧
    ReconciledFor (redeemPointsController s (some uid) p tg now).1 u0 := by
  rw [redeemCtrl_fst]
  by_cases hcond : ¬(p = 0 ∨ tg = false) ∧ ¬(p < 100) ∧ redeemBalanceCheck s uid p = true
  · rw [if_pos hcond]
    obtain ⟨h0, h1, hc⟩ := hcond
    obtain ⟨w, hw, hge⟩ : ∃ w, s.wallets uid = some w ∧ ¬ w.available_points < p := by
      unfold redeemBalanceCheck at hc
      cases hcw : s.wallets uid with
      | none => rw [hcw] at hc; cases hc
      | some w => rw [hcw] at hc; exact ⟨w, rfl, by simpa using hc⟩
    have hp100 : (100 : Int) ≤ p := not_lt.mp h1
    obtain ⟨hnd, hb⟩ := hi
    constructor
    · have hids := idsOK_snoc s.ledger_transactions
        { id := s.next_id + 1
          user_id := uid
          video_id := none
          creator_id := none
          transaction_type := TxType.REDEEMED
          points := -p
          category := none
          watch_duration_seconds := none
          rate_per_10m := none
          status := TxStatus.REDEEMED
          posted_at := now
          available_at := none
          expires_at := none
          reason := "Redemption request"
          created_at := now }
        s.next_id (s.next_id + 2) hnd hb (Nat.le_succ _)
        (Nat.lt_succ_self _) (Nat.le_add_right _ 2)
      exact ⟨by rw [redeemWrite_ledger]; exact hids.1,
             by rw [redeemWrite_ledger]; exact hids.2⟩
    · intro w' hw'
      rw [redeemWrite_ledger, sumStatus_append, sumStatus_append, redeemMag_append,
        sumStatus_cons, sumStatus_cons, redeemMag_cons, sumStatus_nil,
        sumStatus_nil, redeemMag_nil]
      by_cases hu : u0 = uid
      · subst hu
        have hwal : (redeemWritePhase s u0 p now).wallets u0
            = some { w with
                available_points := w.available_points - p
                updated_at := now } := by
          simp [redeemWritePhase, hw]
        have hww : w' = { w with
            available_points := w.available_points - p
            updated_at := now } := Option.some.inj (hw'.symm.trans hwal)
        obtain ⟨hrp, hra⟩ := hr w hw
        rw [hww]
        constructor
        · rw [hrp]; simp
        · rw [hra]
          simp
          rw [abs_of_nonneg (show (0 : Int) ≤ p by omega)]
          ring
      · have hwal : (redeemWritePhase s uid p now).wallets u0 = s.wallets u0 := by
          simp [redeemWritePhase, hu]
        rw [hwal] at hw'
        obtain ⟨hrp, hra⟩ := hr w' hw'
        have hne2 : uid ≠ u0 := fun h => hu h.symm
        constructor
        · rw [hrp]; simp [hne2]
        · rw [hra]; simp [hne2]
  · rw [if_neg hcond]
    exact ⟨⟨hi.1, hi.2⟩, hr⟩

/-- The heartbeat never touches `ledger_transactions`. -/
theorem heartbeat_ledger (s : DBState) (uid v c : Nat) (d : Nat)
    (cat : Category) (now : Int) :
    (recordWatchHeartbeat s uid v c d cat now).1.ledger_transactions
      = s.ledger_transactions := by
  unfold recordWatchHeartbeat
  cases s.users uid with
  | none => rfl
  | some es =>
    by_cases h : 0 < basePointsFor d (earningRate cat) * multiplierFor es
    · simp only [h, if_true]
      split <;> rfl
    · simp only [h, if_false]
      split <;> rfl

/-- The heartbeat's fresh-id counter never decreases. -/
theorem heartbeat_next_id (s : DBState) (uid v c : Nat) (d : Nat)
    (cat : Category) (now : Int) :
    s.next_id ≤ (recordWatchHeartbeat s uid v c d cat now).1.next_id := by
  unfold recordWatchHeartbeat
  cases s.users uid with
  | none => exact le_refl _
  | some es =>
    by_cases h : 0 < basePointsFor d (earningRate cat) * multiplierFor es
    · simp only [h, if_true]
      split <;> exact Nat.le_succ _
    · simp only [h, if_false]
      split <;> exact le_refl _

theorem heartbeat_preserves_ids (s : DBState) (uid v c : Nat) (d : Nat)
    (cat : Category) (now : Int) (hi : LedgerIdsOK s) :
    LedgerIdsOK (recordWatchHeartbeat s uid v c d cat now).1 := by
  obtain ⟨hnd, hb⟩ := hi
  constructor
  · rw [heartbeat_ledger]; exact hnd
  · intro t ht
    rw [heartbeat_ledger] at ht
    exact lt_of_lt_of_le (hb t ht) (heartbeat_next_id s uid v c d cat now)

/-- Joint invariant for the amended reconciliation claim. -/
def WalletInv (s : DBState) (u0 : Nat) : Prop :=
  LedgerIdsOK s ∧ ReconciledFor s u0

/-- Heartbeat operations, which credit the wallet without a
`ledger_transactions` row. -/
def isHeartbeatOp : Op → Bool
  | Op.heartbeat _ _ _ _ _ => true
  | _ => false

theorem applyOp_preserves_walletInv (s : DBState) (now : Int) (op : Op)
    (u0 : Nat) (hhb : isHeartbeatOp op = false) (h : WalletInv s u0) :
    WalletInv (applyOp s now op) u0 := by
  obtain ⟨hi, hr⟩ := h
  cases op with
  | watchEvent uid v c d cat =>
    exact watchEvent_preserves s uid v c d cat now u0 hi hr
  | heartbeat uid v c d cat => cases hhb
  | sweep =>
    rw [show applyOp s now Op.sweep = processPendingToAvailable s now from rfl]
    refine ⟨⟨?_, ?_⟩, sweep_preserves_reconciled s now hi.1 u0 hr⟩
    · have : (processPendingToAvailable s now).ledger_transactions.map (·.id)
          = s.ledger_transactions.map (·.id) := by
        rw [sweep_ledger_char s now hi.1, List.map_map]
        apply List.map_congr_left
        intro t _
        by_cases hm : maturable now t <;> simp [flipMatured, hm]
      rw [this]; exact hi.1
    · intro t ht
      rw [sweep_ledger_char s now hi.1] at ht
      obtain ⟨t0, ht0, rfl⟩ := List.mem_map.mp ht
      have hn : (processPendingToAvailable s now).next_id = s.next_id := by
        rw [show processPendingToAvailable s now
            = (s.ledger_transactions.filter (maturable now)).foldl (matureOne now) s
            from rfl, foldlMature_next_id]
      rw [hn]
      have := hi.2 t0 ht0
      by_cases hm : maturable now t0 <;> simp [flipMatured, hm] <;> exact this
  | redeem uid p tg =>
    exact redeemCtrl_preserves s uid p tg now u0 hi hr

/-- No heartbeat occurs in the trace. -/
def heartbeatFree (tr : List (Int × Op)) : Prop :=
  ∀ e ∈ tr, isHeartbeatOp e.2 = false

theorem run_preserves_walletInv (u0 : Nat) :
    ∀ (tr : List (Int × Op)) (s : DBState),
      WalletInv s u0 → heartbeatFree tr → WalletInv (run s tr) u0 := by
  intro tr
  induction tr with
  | nil => intro s h _; exact h
  | cons e rest ih =>
    intro s h hf
    obtain ⟨t, op⟩ := e
    have h1 : WalletInv (applyOp s t op) u0 :=
      applyOp_preserves_walletInv s t op u0 (hf (t, op) (List.mem_cons_self _ _)) h
    exact ih (applyOp s t op) h1 fun e' he' => hf e' (List.mem_cons_of_mem _ he')

instance (tr : List (Int × Op)) : Decidable (heartbeatFree tr) := by
  unfold heartbeatFree; infer_instance

instance (s : DBState) (u : Nat) : Decidable (WalletInv s u) := by
  unfold WalletInv; infer_instance

/-- A zeroed wallet row, as created at account creation. -/
def zeroWallet (u : Nat) : Wallet :=
  { user_id := u
    pending_points := 0
    available_points := 0
    total_earned := 0
    total_redeemed := 0
    updated_at := 0 }

/-- One user (id 1) with a zeroed wallet, `expert_status = 'none'`, and an
empty ledger. -/
def oneUserState : DBState :=
  { ledger_transactions := []
    transactions := []
    redemption_requests := []
    wallets := fun u => if u = 1 then some (zeroWallet 1) else none
    users := fun u => if u = 1 then some "none" else none
    next_id := 0 }

def c1Trace : List (Int × Op) :=
  [(0, Op.watchEvent 1 10 20 600 Category.FINANCE),
   (HOLDING_PERIOD_MS, Op.sweep),
   (HOLDING_PERIOD_MS, Op.redeem 1 100 true)]

/-- The wallet row user 1 ends up with after `c1Trace`: earn 500 pending,
mature them, redeem 100. -/
def c1FinalWallet : Wallet :=
  { user_id := 1
    pending_points := 0
    available_points := 400
    total_earned := 0
    total_redeemed := 0
    updated_at := HOLDING_PERIOD_MS }

/-- C1 (counterexample): the claim includes the heartbeat among the covered
operations, but one heartbeat from a reconciled state credits 100 pending
points to the wallet while appending nothing to `ledger_transactions` (its
insert goes to the separate `transactions` table), so the reconciliation law
fails and recomputing from the ledger does not reproduce the cached
wallet. -/
theorem heartbeat_breaks_reconciliation :
    WalletInv oneUserState 1 ∧
    (((run oneUserState [(0, Op.heartbeat 1 10 20 600 Category.ENTERTAINMENT)]).wallets 1).map
        (·.pending_points) = some 100) ∧
    sumStatus 1 TxStatus.POSTED
        (run oneUserState
          [(0, Op.heartbeat 1 10 20 600 Category.ENTERTAINMENT)]).ledger_transactions = 0 ∧
    ¬ ReconciledFor (run oneUserState [(0, Op.heartbeat 1 10 20 600 Category.ENTERTAINMENT)]) 1 :=
  ⟨by decide, by decide, by decide, by decide⟩

/-- C1 (amended): for every user, after every completed sequence of
watch-event earnings, maturation sweeps, and redemptions — heartbeat
earnings excluded, since they credit the wallet without a ledger row — the
wallet projection satisfies `pendingPoints` = sum of the user's POSTED
ledger points and `availablePoints` = sum of the user's AVAILABLE ledger
points minus the magnitudes of the REDEEMED debits; recomputing the wallet
from the ledger reproduces the cached wallet. -/
theorem wallet_reconciliation_heartbeat_free (s0 : DBState)
    (tr : List (Int × Op)) (u0 : Nat)
    (hinv : WalletInv s0 u0) (hhb : heartbeatFree tr) :
    ∀ w, (run s0 tr).wallets u0 = some w →
      w.pending_points = sumStatus u0 TxStatus.POSTED (run s0 tr).ledger_transactions ∧
      w.available_points
        = sumStatus u0 TxStatus.AVAILABLE (run s0 tr).ledger_transactions
          - redeemMag u0 (run s0 tr).ledger_transactions :=
  (run_preserves_walletInv u0 tr s0 hinv hhb).2

/-- C1 (witness): the amended reconciliation law evaluated on a concrete
earn–sweep–redeem trace for user 1. -/
theorem wallet_reconciliation_heartbeat_free_witness :
    c1FinalWallet.pending_points
        = sumStatus 1 TxStatus.POSTED (run oneUserState c1Trace).ledger_transactions ∧
    c1FinalWallet.available_points
        = sumStatus 1 TxStatus.AVAILABLE (run oneUserState c1Trace).ledger_transactions
          - redeemMag 1 (run oneUserState c1Trace).ledger_transactions :=
  wallet_reconciliation_heartbeat_free oneUserState c1Trace 1 (by decide) (by decide)
    c1FinalWallet (by decide)

/-! ## Claim C5: maturation idempotence -/

/-- C5: one maturation sweep flips exactly the POSTED rows whose holding
period has elapsed to AVAILABLE (the SELECT condition
`posted_at <= now - 30 days` coincides with `availableAt <= now` for rows
whose `availableAt` is `postedAt` plus the holding period, as every earning
writes it), moves exactly those rows' points from the owner's pending to
available balance, and running the sweep a second time on the result is a
no-op. -/
theorem maturation_sweep_once_then_noop (s : DBState) (now : Int)
    (hnd : (s.ledger_transactions.map (·.id)).Nodup) :
    (processPendingToAvailable s now).ledger_transactions
        = s.ledger_transactions.map (flipMatured now) ∧
    (∀ t ∈ s.ledger_transactions, ∀ a, t.available_at = some a →
      a = t.posted_at + HOLDING_PERIOD_MS →
      (maturable now t = true ↔ (t.status = TxStatus.POSTED ∧ a ≤ now))) ∧
    (∀ u w, s.wallets u = some w →
      ∃ w', (processPendingToAvailable s now).wallets u = some w' ∧
        w'.pending_points = w.pending_points - maturedSumU now u s.ledger_transactions ∧
        w'.available_points = w.available_points + maturedSumU now u s.ledger_transactions) ∧
    processPendingToAvailable (processPendingToAvailable s now) now
        = processPendingToAvailable s now := by
  refine ⟨sweep_ledger_char s now hnd, ?_, ?_, sweep_idempotent s now⟩
  · intro t _ a _ ha
    subst ha
    unfold maturable
    constructor
    · intro h
      simp only [Bool.and_eq_true, beq_iff_eq, decide_eq_true_eq] at h
      exact ⟨h.1, by omega⟩
    · intro h
      simp only [Bool.and_eq_true, beq_iff_eq, decide_eq_true_eq]
      exact ⟨h.1, by omega⟩
  · intro u w hw
    obtain ⟨w', hw', hp, ha⟩ :=
      (foldlMature_wallets now (s.ledger_transactions.filter (maturable now)) s u).2 w hw
    exact ⟨w', hw', by rw [hp, maturedPts_filter], by rw [ha, maturedPts_filter]⟩

/-- An EARN/POSTED ledger row for user 1 whose holding period has elapsed by
`HOLDING_PERIOD_MS`. -/
def c5Entry : LedgerTransaction :=
  { id := 0
    user_id := 1
    video_id := some 10
    creator_id := some 20
    transaction_type := TxType.EARN
    points := 40
    category := some Category.FINANCE
    watch_duration_seconds := some 48
    rate_per_10m := some 500
    status := TxStatus.POSTED
    posted_at := 0
    available_at := some HOLDING_PERIOD_MS
    expires_at := some (HOLDING_PERIOD_MS + EXPIRY_WINDOW_MS)
    reason := "Video watched"
    created_at := 0 }

def c5State : DBState :=
  { ledger_transactions := [c5Entry]
    transactions := []
    redemption_requests := []
    wallets := fun u => if u = 1 then
        some { zeroWallet 1 with pending_points := 40 } else none
    users := fun u => if u = 1 then some "none" else none
    next_id := 1 }

/-- C5 (witness): the sweep theorem evaluated on one matured 40-point
entry. -/
theorem maturation_sweep_once_then_noop_witness :
    (processPendingToAvailable c5State HOLDING_PERIOD_MS).ledger_transactions
        = c5State.ledger_transactions.map (flipMatured HOLDING_PERIOD_MS) ∧
    (∃ w', (processPendingToAvailable c5State HOLDING_PERIOD_MS).wallets 1 = some w' ∧
      w'.pending_points = (40 : Int) -
        maturedSumU HOLDING_PERIOD_MS 1 c5State.ledger_transactions ∧
      w'.available_points = (0 : Int) +
        maturedSumU HOLDING_PERIOD_MS 1 c5State.ledger_transactions) ∧
    processPendingToAvailable (processPendingToAvailable c5State HOLDING_PERIOD_MS)
        HOLDING_PERIOD_MS
      = processPendingToAvailable c5State HOLDING_PERIOD_MS := by
  have h := maturation_sweep_once_then_noop c5State HOLDING_PERIOD_MS (by decide)
  exact ⟨h.1, h.2.2.1 1 { zeroWallet 1 with pending_points := 40 } (by decide), h.2.2.2⟩

/-! ## Claim C4: insufficient balance fails with no side effects -/

/-- C4: when the wallet's available balance is below the requested amount,
`redeemPoints` throws the insufficient-balance error before performing any
write: the returned state is the input state, so no `redemption_requests`
row is created, no ledger row is appended, and the wallet is unchanged. -/
theorem redeem_insufficient_no_side_effects (s : DBState) (uid : Nat) (p : Int)
    (now : Int) (w : Wallet) (hw : s.wallets uid = some w)
    (hlt : w.available_points < p) :
    redeemPoints s uid p now = (s, Except.error "Insufficient points") ∧
    (redeemPoints s uid p now).1.redemption_requests = s.redemption_requests ∧
    (redeemPoints s uid p now).1.ledger_transactions = s.ledger_transactions ∧
    (redeemPoints s uid p now).1.wallets uid = some w := by
  have h : redeemPoints s uid p now = (s, Except.error "Insufficient points") := by
    unfold redeemPoints
    rw [hw]
    simp [hlt]
  exact ⟨h, by rw [h], by rw [h], by rw [h]; exact hw⟩

/-- User 1 holding 50 available points. -/
def fiftyAvailState : DBState :=
  { oneUserState with
    wallets := fun u => if u = 1 then
        some { zeroWallet 1 with available_points := 50 } else none }

/-- C4 (witness): redeeming 100 points against 50 available fails and leaves
the state untouched. -/
theorem redeem_insufficient_no_side_effects_witness :
    redeemPoints fiftyAvailState 1 100 0
        = (fiftyAvailState, Except.error "Insufficient points") ∧
    (redeemPoints fiftyAvailState 1 100 0).1.redemption_requests
        = fiftyAvailState.redemption_requests ∧
    (redeemPoints fiftyAvailState 1 100 0).1.ledger_transactions
        = fiftyAvailState.ledger_transactions ∧
    (redeemPoints fiftyAvailState 1 100 0).1.wallets 1
        = some { zeroWallet 1 with available_points := 50 } :=
  redeem_insufficient_no_side_effects fiftyAvailState 1 100 0
    { zeroWallet 1 with available_points := 50 } (by decide) (by decide)

/-! ## Claim C8: redemption success postcondition -/

/-- C8: a redeem call that passes the controller validation (amount present,
at least 100) and the balance check creates a PENDING `redemption_requests`
row, appends a REDEEMED ledger debit of `-pointsToRedeem`, decreases the
wallet's available balance by that amount, and responds with the redemption
id, the points, and status PENDING. -/
theorem redeem_success_postcondition (s : DBState) (uid : Nat) (p : Int)
    (now : Int) (w : Wallet) (hw : s.wallets uid = some w)
    (h0 : ¬ p = 0) (h100 : ¬ p < 100) (hbal : ¬ w.available_points < p) :
    (redeemPointsController s (some uid) p true now).2
        = Except.ok { redemptionId := s.next_id
                      pointsRedeemed := p
                      status := RedemptionStatus.PENDING } ∧
    (redeemPointsController s (some uid) p true now).1.redemption_requests
        = s.redemption_requests ++
          [{ id := s.next_id
             user_id := uid
             amount_points := p
             redemption_type := "UPI"
             status := RedemptionStatus.PENDING
             created_at := now }] ∧
    (redeemPointsController s (some uid) p true now).1.ledger_transactions
        = s.ledger_transactions ++
          [{ id := s.next_id + 1
             user_id := uid
             video_id := none
             creator_id := none
             transaction_type := TxType.REDEEMED
             points := -p
             category := none
             watch_duration_seconds := none
             rate_per_10m := none
             status := TxStatus.REDEEMED
             posted_at := now
             available_at := none
             expires_at := none
             reason := "Redemption request"
             created_at := now }] ∧
    ((redeemPointsController s (some uid) p true now).1.wallets uid).map
        (·.available_points) = some (w.available_points - p) := by
  have hchk : redeemBalanceCheck s uid p = true := by
    unfold redeemBalanceCheck
    rw [hw]
    simpa using hbal
  have hcond : ¬ (p = 0 ∨ (true : Bool) = false) := by simp [h0]
  have hfst : (redeemPointsController s (some uid) p true now).1
      = redeemWritePhase s uid p now := by
    rw [redeemCtrl_fst, if_pos ⟨hcond, h100, hchk⟩]
  have hsnd : (redeemPointsController s (some uid) p true now).2
      = Except.ok { redemptionId := s.next_id
                    pointsRedeemed := p
                    status := RedemptionStatus.PENDING } := by
    unfold redeemPointsController
    simp [hcond, h0, h100, redeemPoints_split, hchk]
  refine ⟨hsnd, ?_, ?_, ?_⟩
  · rw [hfst]
    exact rfl
  · rw [hfst, redeemWrite_ledger]
  · rw [hfst]
    simp [redeemWritePhase, hw]

/-- User 1 holding 500 available points. -/
def fiveHundredAvailState : DBState :=
  { oneUserState with
    wallets := fun u => if u = 1 then
        some { zeroWallet 1 with available_points := 500 } else none }

/-- C8 (witness): a successful 100-point redemption against 500 available
points, evaluated concretely. -/
theorem redeem_success_postcondition_witness :
    (redeemPointsController fiveHundredAvailState (some 1) 100 true 7).2
        = Except.ok { redemptionId := 0
                      pointsRedeemed := 100
                      status := RedemptionStatus.PENDING } ∧
    (redeemPointsController fiveHundredAvailState (some 1) 100 true 7).1.redemption_requests
        = fiveHundredAvailState.redemption_requests ++
          [{ id := 0
             user_id := 1
             amount_points := 100
             redemption_type := "UPI"
             status := RedemptionStatus.PENDING
             created_at := 7 }] ∧
    (redeemPointsController fiveHundredAvailState (some 1) 100 true 7).1.ledger_transactions
        = fiveHundredAvailState.ledger_transactions ++
          [{ id := 1
             user_id := 1
             video_id := none
             creator_id := none
             transaction_type := TxType.REDEEMED
             points := -100
             category := none
             watch_duration_seconds := none
             rate_per_10m := none
             status := TxStatus.REDEEMED
             posted_at := 7
             available_at := none
             expires_at := none
             reason := "Redemption request"
             created_at := 7 }] ∧
    ((redeemPointsController fiveHundredAvailState (some 1) 100 true 7).1.wallets 1).map
        (·.available_points) = some ((500 : Int) - 100) :=
  redeem_success_postcondition fiveHundredAvailState 1 100 7
    { zeroWallet 1 with available_points := 500 }
    (by decide) (by decide) (by decide) (by decide)

/-! ## Claim C2: concurrent redemptions can overdraw -/

/-- User 1 holding exactly 100 available points. -/
def hundredAvailState : DBState :=
  { oneUserState with
    wallets := fun u => if u = 1 then
        some { zeroWallet 1 with available_points := 100 } else none }

/-- C2: the balance check and the debit of `redeemPoints` are separate,
non-conditional store operations (`redeemPoints_split` shows the code is
exactly check-then-unconditional-write, with no per-user lock and no
conditional debit).  Interleaving two 100-point redemptions for a user
holding 100 available points as check₁, check₂, write₁, write₂ lets both
checks read the pre-write state and pass, commits two REDEEM debits
totalling 200 against a balance that never exceeded 100, and drives the
available balance to -100. -/
theorem concurrent_redemption_overdraft :
    ((hundredAvailState.wallets 1).map (·.available_points) = some 100) ∧
    redeemBalanceCheck hundredAvailState 1 100 = true ∧
    ((redeemWritePhase (redeemWritePhase hundredAvailState 1 100 0) 1 100 0).wallets 1).map
        (·.available_points) = some (-100) ∧
    redeemMag 1
        (redeemWritePhase (redeemWritePhase hundredAvailState 1 100 0) 1 100 0).ledger_transactions
      = 200 :=
  ⟨by decide, by decide, by decide, by decide⟩

instance {ε α : Type} [DecidableEq ε] [DecidableEq α] : DecidableEq (Except ε α) :=
  fun x y =>
    match x, y with
    | Except.error a, Except.error b =>
      if h : a = b then isTrue (by rw [h]) else
        isFalse (fun hc => h (Except.error.inj hc))
    | Except.ok a, Except.ok b =>
      if h : a = b then isTrue (by rw [h]) else
        isFalse (fun hc => h (Except.ok.inj hc))
    | Except.error _, Except.ok _ => isFalse (fun hc => Except.noConfusion hc)
    | Except.ok _, Except.error _ => isFalse (fun hc => Except.noConfusion hc)

/-! ## Claim C3: rate model -/

/-- Modelled from the spec: the claimed formula
`points = floor((watchDurationSeconds / 600) * baseRatePerCategory * tierMultiplier)`
with exact arithmetic, for comparison with the implementation. -/
def specPointsFormula (watchDurationSeconds ratePerTenMin tierMultiplier : Nat) : Nat :=
  watchDurationSeconds * ratePerTenMin * tierMultiplier / 600

/-- User 1 with `expert_status = 'verified'` (tier VERIFIED, multiplier 5). -/
def verifiedUserState : DBState :=
  { oneUserState with users := fun u => if u = 1 then some "verified" else none }

/-- C3 (counterexample): `recordWatchEvent` applies no tier multiplier at
all.  A verified user (multiplier 5) watching 600 s of FINANCE content gets
a 500-point ledger entry, while the claimed formula yields 2500. -/
theorem rate_model_ignores_tier :
    verifiedUserState.users 1 = some "verified" ∧
    multiplierFor "verified" = 5 ∧
    ((recordWatchEvent verifiedUserState 1 10 20 600 Category.FINANCE 0).ledger_transactions.map
        (·.points)) = [500] ∧
    specPointsFormula 600 (earningRate Category.FINANCE) (multiplierFor "verified") = 2500 :=
  ⟨by decide, by decide, by decide, by decide⟩

theorem heartbeat_points_formula (s : DBState) (uid v c : Nat) (d : Nat)
    (cat : Category) (now : Int) (es : String) (hus : s.users uid = some es) :
    ∀ r, (recordWatchHeartbeat s uid v c d cat now).2 = Except.ok r →
      r.pointsEarned = ((basePointsFor d (earningRate cat) * multiplierFor es : Nat) : Int) ∧
      r.multiplier = multiplierFor es := by
  unfold recordWatchHeartbeat
  rw [hus]
  by_cases hpos : 0 < basePointsFor d (earningRate cat) * multiplierFor es
  · simp only [hpos, if_true]
    split
    · intro r hr; simp at hr
    · intro r hr
      simp only [Except.ok.injEq] at hr
      subst hr
      exact ⟨rfl, rfl⟩
  · simp only [hpos, if_false]
    split
    · intro r hr; simp at hr
    · intro r hr
      simp only [Except.ok.injEq] at hr
      subst hr
      exact ⟨rfl, rfl⟩

/-- C3 (amended): `recordWatchEvent` credits
`floor((watchDurationSeconds / 600) * baseRatePerCategory)` with no tier
multiplier; `recordWatchHeartbeat` credits that floored base multiplied by
the tier multiplier (multiplier applied after flooring), where the
multiplier is 1, 3, or 5 for `expert_status` none, pending, verified (and 1
for anything else). -/
theorem rate_model_amended (s : DBState) (uid v c : Nat) (d : Nat)
    (cat : Category) (now : Int) (es : String)
    (h5 : ¬ d < 5) (hp : ¬ basePointsFor d (earningRate cat) = 0)
    (hus : s.users uid = some es) :
    ((recordWatchEvent s uid v c d cat now).ledger_transactions.map (·.points))
        = (s.ledger_transactions.map (·.points)) ++
          [(basePointsFor d (earningRate cat) : Int)] ∧
    (∀ r, (recordWatchHeartbeat s uid v c d cat now).2 = Except.ok r →
      r.pointsEarned = ((basePointsFor d (earningRate cat) * multiplierFor es : Nat) : Int) ∧
      r.multiplier = multiplierFor es) ∧
    multiplierFor "none" = 1 ∧ multiplierFor "pending" = 3 ∧
    multiplierFor "verified" = 5 := by
  refine ⟨?_, heartbeat_points_formula s uid v c d cat now es hus, rfl, rfl, rfl⟩
  have heq : recordWatchEvent s uid v c d cat now
      = updateWalletPending
          (recordEarning s uid v c (basePointsFor d (earningRate cat)) cat d
            (earningRate cat) now)
          uid ((basePointsFor d (earningRate cat) : Int)) now := by
    simp [recordWatchEvent, h5, hp]
  rw [heq]
  simp [updateWalletPending, recordEarning]

/-- C3 (witness): 600 s of FINANCE for a verified user — the event path
records 500 points (no multiplier), the heartbeat path records 2500. -/
theorem rate_model_amended_witness :
    ((recordWatchEvent verifiedUserState 1 10 20 600 Category.FINANCE 0).ledger_transactions.map
        (·.points))
        = (verifiedUserState.ledger_transactions.map (·.points)) ++
          [(basePointsFor 600 (earningRate Category.FINANCE) : Int)] ∧
    (∀ r, (recordWatchHeartbeat verifiedUserState 1 10 20 600 Category.FINANCE 0).2
        = Except.ok r →
      r.pointsEarned
          = ((basePointsFor 600 (earningRate Category.FINANCE) * multiplierFor "verified"
              : Nat) : Int) ∧
      r.multiplier = multiplierFor "verified") ∧
    multiplierFor "none" = 1 ∧ multiplierFor "pending" = 3 ∧
    multiplierFor "verified" = 5 :=
  rate_model_amended verifiedUserState 1 10 20 600 Category.FINANCE 0 "verified"
    (by decide) (by decide) (by decide)

/-! ## Claim C6: minimum-watch rejection -/

/-- C6 (counterexample): `recordWatchHeartbeat` has no 5-second minimum.  A
3-second FINANCE heartbeat (below the minimum) earns
`floor((3 / 600) * 500) = 2` points, appends a `transactions` row, and
bumps the wallet, contradicting the claimed zero-point no-entry outcome. -/
theorem heartbeat_ignores_minimum :
    (3 : Nat) < 5 ∧
    (recordWatchHeartbeat oneUserState 1 10 20 3 Category.FINANCE 0).2
        = Except.ok { pendingPoints := 2
                      availablePoints := 0
                      pointsEarned := 2
                      multiplier := 1 } ∧
    (recordWatchHeartbeat oneUserState 1 10 20 3 Category.FINANCE 0).1.transactions.length = 1 ∧
    ((recordWatchHeartbeat oneUserState 1 10 20 3 Category.FINANCE 0).1.wallets 1).map
        (·.pending_points) = some 2 :=
  ⟨by decide, by decide, by decide, by decide⟩

/-- C6 (amended): the 5-second minimum applies to `recordWatchEvent` only:
a watch below 5 seconds returns silently with a zero-point outcome — the
state (ledger, wallet, everything) is unchanged and no error is raised.
`recordWatchHeartbeat` performs no minimum-duration check and records
whenever its computed points are positive. -/
theorem min_watch_event_rejected (s : DBState) (uid v c : Nat) (d : Nat)
    (cat : Category) (now : Int) (h5 : d < 5) :
    recordWatchEvent s uid v c d cat now = s := by
  simp [recordWatchEvent, h5]

/-- C6 (witness): a 3-second watch event leaves the store untouched. -/
theorem min_watch_event_rejected_witness :
    recordWatchEvent oneUserState 1 10 20 3 Category.FINANCE 0 = oneUserState :=
  min_watch_event_rejected oneUserState 1 10 20 3 Category.FINANCE 0 (by decide)

/-! ## Claim C9: the sweep's count -/

/-- C9 (counterexample): the admin process-maturation endpoint returns the
same fixed success message whether the sweep processed 0 rows or 1 row, so
it does not report the processed count; `processPendingToAvailable` itself
returns void (its row count is only logged). -/
theorem sweep_count_not_reported :
    (processPendingPointsController oneUserState
        (some { userId := 9, role := "ADMIN" }) HOLDING_PERIOD_MS).2
      = Except.ok "Pending points processed successfully" ∧
    (processPendingPointsController c5State
        (some { userId := 9, role := "ADMIN" }) HOLDING_PERIOD_MS).2
      = Except.ok "Pending points processed successfully" ∧
    (oneUserState.ledger_transactions.filter (maturable HOLDING_PERIOD_MS)).length = 0 ∧
    (c5State.ledger_transactions.filter (maturable HOLDING_PERIOD_MS)).length = 1 :=
  ⟨by decide, by decide, by decide, by decide⟩

/-- C9 (amended): the sweep runs and transitions the matured rows, but its
TypeScript signature is `Promise<void>` — no count is returned — and the
admin endpoint responds with a fixed success message carrying no processed
count (the count appears only in a log line). -/
theorem sweep_returns_fixed_message (s : DBState) (u : AuthUser) (now : Int)
    (hadm : u.role = "ADMIN") :
    processPendingPointsController s (some u) now
      = (processPendingToAvailable s now,
         Except.ok "Pending points processed successfully") := by
  unfold processPendingPointsController
  simp [hadm]

/-- C9 (witness): the endpoint evaluated for an admin caller on the
one-entry state. -/
theorem sweep_returns_fixed_message_witness :
    processPendingPointsController c5State (some { userId := 9, role := "ADMIN" })
        HOLDING_PERIOD_MS
      = (processPendingToAvailable c5State HOLDING_PERIOD_MS,
         Except.ok "Pending points processed successfully") :=
  sweep_returns_fixed_message c5State { userId := 9, role := "ADMIN" }
    HOLDING_PERIOD_MS (by decide)

/-! ## Claim C7: monotonic holding period -/

theorem watchEvent_preserves_ids (s : DBState) (uid v c : Nat) (d : Nat)
    (cat : Category) (now : Int) (hi : LedgerIdsOK s) :
    LedgerIdsOK (recordWatchEvent s uid v c d cat now) := by
  by_cases h5 : d < 5
  · simpa [recordWatchEvent, h5] using hi
  · by_cases hp : basePointsFor d (earningRate cat) = 0
    · simpa [recordWatchEvent, h5, hp] using hi
    · have heq : recordWatchEvent s uid v c d cat now
          = updateWalletPending
              (recordEarning s uid v c (basePointsFor d (earningRate cat)) cat d
                (earningRate cat) now)
              uid ((basePointsFor d (earningRate cat) : Int)) now := by
        simp [recordWatchEvent, h5, hp]
      rw [heq]
      exact idsOK_snoc s.ledger_transactions _ s.next_id (s.next_id + 1)
        hi.1 hi.2 (le_refl _) (Nat.lt_succ_self _) (Nat.le_succ _)

theorem sweep_ids_map (s : DBState) (now : Int) :
    (processPendingToAvailable s now).ledger_transactions.map (·.id)
      = s.ledger_transactions.map (·.id) := by
  rw [show processPendingToAvailable s now
      = (s.ledger_transactions.filter (maturable now)).foldl (matureOne now) s from rfl,
    foldlMature_ledger, List.map_map]
  apply List.map_congr_left
  intro t _
  by_cases hm : (s.ledger_transactions.filter (maturable now)).any
      (fun tr => tr.id == t.id) <;>
    simp [setAvailIfMatched, hm]

theorem sweep_preserves_ids (s : DBState) (now : Int) (hi : LedgerIdsOK s) :
    LedgerIdsOK (processPendingToAvailable s now) := by
  constructor
  · rw [sweep_ids_map]; exact hi.1
  · intro t ht
    rw [show processPendingToAvailable s now
        = (s.ledger_transactions.filter (maturable now)).foldl (matureOne now) s from rfl,
      foldlMature_ledger] at ht
    obtain ⟨t0, ht0, rfl⟩ := List.mem_map.mp ht
    have hn : (processPendingToAvailable s now).next_id = s.next_id :=
      foldlMature_next_id now (s.ledger_transactions.filter (maturable now)) s
    rw [hn]
    have h0 := hi.2 t0 ht0
    by_cases hm : (s.ledger_transactions.filter (maturable now)).any
        (fun tr => tr.id == t0.id) <;>
      simpa [setAvailIfMatched, hm] using h0

theorem redeemCtrl_preserves_ids (s : DBState) (uid : Nat) (p : Int) (tg : Bool)
    (now : Int) (hi : LedgerIdsOK s) :
    LedgerIdsOK (redeemPointsController s (some uid) p tg now).1 := by
  rw [redeemCtrl_fst]
  by_cases hcond : ¬(p = 0 ∨ tg = false) ∧ ¬(p < 100) ∧ redeemBalanceCheck s uid p = true
  · rw [if_pos hcond]
    have hids := idsOK_snoc s.ledger_transactions
      { id := s.next_id + 1
        user_id := uid
        video_id := none
        creator_id := none
        transaction_type := TxType.REDEEMED
        points := -p
        category := none
        watch_duration_seconds := none
        rate_per_10m := none
        status := TxStatus.REDEEMED
        posted_at := now
        available_at := none
        expires_at := none
        reason := "Redemption request"
        created_at := now }
      s.next_id (s.next_id + 2) hi.1 hi.2 (Nat.le_succ _)
      (Nat.lt_succ_self _) (Nat.le_add_right _ 2)
    exact ⟨by rw [redeemWrite_ledger]; exact hids.1,
           by rw [redeemWrite_ledger]; exact hids.2⟩
  · rw [if_neg hcond]
    exact hi

/-- Every EARN ledger row carries `available_at = posted_at + 30 days`, as
`recordEarning` writes it. -/
def EarnShapeOK (s : DBState) : Prop :=
  ∀ t ∈ s.ledger_transactions, t.transaction_type = TxType.EARN →
    t.available_at = some (t.posted_at + HOLDING_PERIOD_MS)

/-- No EARN ledger row is AVAILABLE before its holding period has elapsed at
the given clock. -/
def EarnMatureOK (s : DBState) (clock : Int) : Prop :=
  ∀ t ∈ s.ledger_transactions, t.transaction_type = TxType.EARN →
    t.status = TxStatus.AVAILABLE → t.posted_at + HOLDING_PERIOD_MS ≤ clock

def HoldingInv (s : DBState) (clock : Int) : Prop :=
  LedgerIdsOK s ∧ EarnShapeOK s ∧ EarnMatureOK s clock

instance (s : DBState) : Decidable (EarnShapeOK s) := by
  unfold EarnShapeOK; infer_instance

instance (s : DBState) (clock : Int) : Decidable (EarnMatureOK s clock) := by
  unfold EarnMatureOK; infer_instance

instance (s : DBState) (clock : Int) : Decidable (HoldingInv s clock) := by
  unfold HoldingInv; infer_instance

theorem earnMatureOK_mono (s : DBState) {c1 c2 : Int} (h12 : c1 ≤ c2)
    (h : EarnMatureOK s c1) : EarnMatureOK s c2 :=
  fun t ht he hs => le_trans (h t ht he hs) h12

theorem applyOp_preserves_holding (s : DBState) (clock now : Int) (op : Op)
    (hle : clock ≤ now) (h : HoldingInv s clock) :
    HoldingInv (applyOp s now op) now := by
  obtain ⟨hi, hshape, hmat⟩ := h
  cases op with
  | watchEvent uid v c d cat =>
    refine ⟨watchEvent_preserves_ids s uid v c d cat now hi, ?_, ?_⟩
    · by_cases h5 : d < 5
      · simpa [applyOp, recordWatchEvent, h5] using hshape
      · by_cases hp : basePointsFor d (earningRate cat) = 0
        · simpa [applyOp, recordWatchEvent, h5, hp] using hshape
        · have heq : applyOp s now (Op.watchEvent uid v c d cat)
              = updateWalletPending
                  (recordEarning s uid v c (basePointsFor d (earningRate cat)) cat d
                    (earningRate cat) now)
                  uid ((basePointsFor d (earningRate cat) : Int)) now := by
            simp [applyOp, recordWatchEvent, h5, hp]
          rw [heq]
          intro t ht hty
          rcases List.mem_append.mp ht with hm | hm
          · exact hshape t hm hty
          · have ht2 : t = { id := s.next_id
                             user_id := uid
                             video_id := some v
                             creator_id := some c
                             transaction_type := TxType.EARN
                             points := ((basePointsFor d (earningRate cat) : Int))
                             category := some cat
                             watch_duration_seconds := some d
                             rate_per_10m := some (earningRate cat)
                             status := TxStatus.POSTED
                             posted_at := now
                             available_at := some (now + HOLDING_PERIOD_MS)
                             expires_at := some (now + HOLDING_PERIOD_MS + EXPIRY_WINDOW_MS)
                             reason := "Video watched"
                             created_at := now } := by simpa using hm
            rw [ht2]
    · by_cases h5 : d < 5
      · simpa [applyOp, recordWatchEvent, h5] using earnMatureOK_mono s hle hmat
      · by_cases hp : basePointsFor d (earningRate cat) = 0
        · simpa [applyOp, recordWatchEvent, h5, hp] using earnMatureOK_mono s hle hmat
        · have heq : applyOp s now (Op.watchEvent uid v c d cat)
              = updateWalletPending
                  (recordEarning s uid v c (basePointsFor d (earningRate cat)) cat d
                    (earningRate cat) now)
                  uid ((basePointsFor d (earningRate cat) : Int)) now := by
            simp [applyOp, recordWatchEvent, h5, hp]
          rw [heq]
          intro t ht hty hst
          rcases List.mem_append.mp ht with hm | hm
          · exact le_trans (hmat t hm hty hst) hle
          · have ht2 := hm
            simp only [List.mem_singleton] at ht2
            rw [ht2] at hst
            cases hst
  | heartbeat uid v c d cat =>
    refine ⟨heartbeat_preserves_ids s uid v c d cat now hi, ?_, ?_⟩
    · intro t ht hty
      rw [show applyOp s now (Op.heartbeat uid v c d cat)
          = (recordWatchHeartbeat s uid v c d cat now).1 from rfl,
        heartbeat_ledger] at ht
      exact hshape t ht hty
    · intro t ht hty hst
      rw [show applyOp s now (Op.heartbeat uid v c d cat)
          = (recordWatchHeartbeat s uid v c d cat now).1 from rfl,
        heartbeat_ledger] at ht
      exact le_trans (hmat t ht hty hst) hle
  | sweep =>
    rw [show applyOp s now Op.sweep = processPendingToAvailable s now from rfl]
    refine ⟨sweep_preserves_ids s now hi, ?_, ?_⟩
    · intro t ht hty
      rw [sweep_ledger_char s now hi.1] at ht
      obtain ⟨t0, ht0, rfl⟩ := List.mem_map.mp ht
      by_cases hm : maturable now t0
      · have hsh := hshape t0 ht0 (by simpa [flipMatured, hm] using hty)
        simpa [flipMatured, hm] using hsh
      · have hsh := hshape t0 ht0 (by simpa [flipMatured, hm] using hty)
        simpa [flipMatured, hm] using hsh
    · intro t ht hty hst
      rw [sweep_ledger_char s now hi.1] at ht
      obtain ⟨t0, ht0, rfl⟩ := List.mem_map.mp ht
      by_cases hm : maturable now t0
      · have hmt := hm
        simp only [maturable, Bool.and_eq_true, beq_iff_eq, decide_eq_true_eq] at hmt
        have : (flipMatured now t0).posted_at = t0.posted_at := by
          simp [flipMatured, hm]
        rw [this]
        omega
      · have hst0 : t0.status = TxStatus.AVAILABLE := by
          simpa [flipMatured, hm] using hst
        have hty0 : t0.transaction_type = TxType.EARN := by
          simpa [flipMatured, hm] using hty
        have : (flipMatured now t0).posted_at = t0.posted_at := by
          simp [flipMatured, hm]
        rw [this]
        exact le_trans (hmat t0 ht0 hty0 hst0) hle
  | redeem uid p tg =>
    rw [show applyOp s now (Op.redeem uid p tg)
        = (redeemPointsController s (some uid) p tg now).1 from rfl]
    refine ⟨redeemCtrl_preserves_ids s uid p tg now hi, ?_, ?_⟩
    · rw [redeemCtrl_fst]
      by_cases hcond : ¬(p = 0 ∨ tg = false) ∧ ¬(p < 100) ∧
          redeemBalanceCheck s uid p = true
      · rw [if_pos hcond]
        intro t ht hty
        rw [redeemWrite_ledger] at ht
        rcases List.mem_append.mp ht with hm | hm
        · exact hshape t hm hty
        · have ht2 := hm
          simp only [List.mem_singleton] at ht2
          rw [ht2] at hty
          cases hty
      · rw [if_neg hcond]
        exact hshape
    · rw [redeemCtrl_fst]
      by_cases hcond : ¬(p = 0 ∨ tg = false) ∧ ¬(p < 100) ∧
          redeemBalanceCheck s uid p = true
      · rw [if_pos hcond]
        intro t ht hty hst
        rw [redeemWrite_ledger] at ht
        rcases List.mem_append.mp ht with hm | hm
        · exact le_trans (hmat t hm hty hst) hle
        · have ht2 := hm
          simp only [List.mem_singleton] at ht2
          rw [ht2] at hty
          cases hty
      · rw [if_neg hcond]
        exact earnMatureOK_mono s hle hmat

/-- Timestamps of a trace never decrease, starting from `t0`. -/
def timesMonoB : Int → List (Int × Op) → Bool
  | _, [] => true
  | t0, e :: rest => decide (t0 ≤ e.1) && timesMonoB e.1 rest

/-- The clock at the end of a trace. -/
def endTime (t0 : Int) : List (Int × Op) → Int
  | [] => t0
  | e :: rest => endTime e.1 rest

theorem run_preserves_holding :
    ∀ (tr : List (Int × Op)) (s : DBState) (t0 : Int),
      HoldingInv s t0 → timesMonoB t0 tr = true →
      HoldingInv (run s tr) (endTime t0 tr) := by
  intro tr
  induction tr with
  | nil => intro s t0 h _; exact h
  | cons e rest ih =>
    intro s t0 h hm
    obtain ⟨t, op⟩ := e
    simp only [timesMonoB, Bool.and_eq_true, decide_eq_true_eq] at hm
    exact ih (applyOp s t op) t (applyOp_preserves_holding s t0 t op hm.1 h) hm.2

/-- C7: along any time-monotone sequence of operations from a state
satisfying the holding invariant (e.g. an empty ledger), every EARN ledger
row has `available_at = posted_at + 30 days` as written at creation, and no
EARN row is in status AVAILABLE unless its holding period had elapsed by the
final clock — an entry created at time T is never AVAILABLE before
T + 30 days. -/
theorem earning_holding_period_monotonic (s0 : DBState) (t0 : Int)
    (tr : List (Int × Op)) (hinv : HoldingInv s0 t0)
    (hmono : timesMonoB t0 tr = true) :
    (∀ t ∈ (run s0 tr).ledger_transactions, t.transaction_type = TxType.EARN →
        t.available_at = some (t.posted_at + HOLDING_PERIOD_MS)) ∧
    (∀ t ∈ (run s0 tr).ledger_transactions, t.transaction_type = TxType.EARN →
        t.status = TxStatus.AVAILABLE →
        t.posted_at + HOLDING_PERIOD_MS ≤ endTime t0 tr) := by
  obtain ⟨_, hs, hm⟩ := run_preserves_holding tr s0 t0 hinv hmono
  exact ⟨hs, hm⟩

def c7Trace : List (Int × Op) :=
  [(5, Op.watchEvent 1 10 20 600 Category.FINANCE),
   (HOLDING_PERIOD_MS + 5, Op.sweep)]

/-- The ledger row `c7Trace` produces: earned at time 5, matured by the
sweep at `HOLDING_PERIOD_MS + 5`. -/
def c7FinalEntry : LedgerTransaction :=
  { id := 0
    user_id := 1
    video_id := some 10
    creator_id := some 20
    transaction_type := TxType.EARN
    points := 500
    category := some Category.FINANCE
    watch_duration_seconds := some 600
    rate_per_10m := some 500
    status := TxStatus.AVAILABLE
    posted_at := 5
    available_at := some (5 + HOLDING_PERIOD_MS)
    expires_at := some (5 + HOLDING_PERIOD_MS + EXPIRY_WINDOW_MS)
    reason := "Video watched"
    created_at := 5 }

/-- C7 (witness): the holding-period theorem evaluated on an
earn-then-mature trace; the matured row's `available_at` is its
`posted_at + 30 days` and its holding period had elapsed by the final
clock. -/
theorem earning_holding_period_monotonic_witness :
    c7FinalEntry.available_at = some (c7FinalEntry.posted_at + HOLDING_PERIOD_MS) ∧
    c7FinalEntry.posted_at + HOLDING_PERIOD_MS ≤ endTime 0 c7Trace := by
  have h := earning_holding_period_monotonic oneUserState 0 c7Trace (by decide) (by decide)
  exact ⟨h.1 c7FinalEntry (by decide) (by decide),
         h.2 c7FinalEntry (by decide) (by decide) (by decide)⟩

/-! ## Claim C10: EARN credits are strictly positive -/

/-- Every EARN credit in either table is at least one point. -/
def EarnPositive (s : DBState) : Prop :=
  (∀ t ∈ s.ledger_transactions, t.transaction_type = TxType.EARN → 1 ≤ t.points) ∧
  (∀ r ∈ s.transactions, r.txn_type = "earn" → 1 ≤ r.amount)

instance (s : DBState) : Decidable (EarnPositive s) := by
  unfold EarnPositive; infer_instance

/-- The heartbeat's `transactions` insert happens only under the
`pointsWithMultiplier > 0` guard, with exactly that positive amount. -/
theorem heartbeat_transactions_char (s : DBState) (uid v c : Nat) (d : Nat)
    (cat : Category) (now : Int) :
    (recordWatchHeartbeat s uid v c d cat now).1.transactions = s.transactions ∨
    ∃ row : HbTransaction,
      (recordWatchHeartbeat s uid v c d cat now).1.transactions
          = s.transactions ++ [row] ∧
      row.txn_type = "earn" ∧ 1 ≤ row.amount := by
  unfold recordWatchHeartbeat
  cases s.users uid with
  | none => exact Or.inl rfl
  | some es =>
    by_cases h : 0 < basePointsFor d (earningRate cat) * multiplierFor es
    · right
      refine ⟨{ id := s.next_id
                user_id := uid
                txn_type := "earn"
                amount := ((basePointsFor d (earningRate cat) * multiplierFor es : Nat) : Int)
                video_id := v
                created_at := now
                metadata := { base_points := basePointsFor d (earningRate cat)
                              multiplier := multiplierFor es
                              tier := es
                              watch_duration_seconds := d
                              category := cat
                              heartbeat := true } }, ?_, rfl, ?_⟩
      · simp only [h, if_true]
        split <;> rfl
      · show (1 : Int) ≤ ((basePointsFor d (earningRate cat) * multiplierFor es : Nat) : Int)
        exact_mod_cast h
    · left
      simp only [h, if_false]
      split <;> rfl

theorem applyOp_preserves_earnPositive (s : DBState) (now : Int) (op : Op)
    (h : EarnPositive s) : EarnPositive (applyOp s now op) := by
  obtain ⟨hl, ht⟩ := h
  cases op with
  | watchEvent uid v c d cat =>
    by_cases h5 : d < 5
    · simpa [applyOp, recordWatchEvent, h5] using ⟨hl, ht⟩
    · by_cases hp : basePointsFor d (earningRate cat) = 0
      · simpa [applyOp, recordWatchEvent, h5, hp] using ⟨hl, ht⟩
      · have heq : applyOp s now (Op.watchEvent uid v c d cat)
            = updateWalletPending
                (recordEarning s uid v c (basePointsFor d (earningRate cat)) cat d
                  (earningRate cat) now)
                uid ((basePointsFor d (earningRate cat) : Int)) now := by
          simp [applyOp, recordWatchEvent, h5, hp]
        rw [heq]
        constructor
        · intro t htl hty
          rcases List.mem_append.mp htl with hm | hm
          · exact hl t hm hty
          · have ht2 := hm
            simp only [List.mem_singleton] at ht2
            rw [ht2]
            have h1 : 1 ≤ basePointsFor d (earningRate cat) :=
              Nat.one_le_iff_ne_zero.mpr hp
            show (1 : Int) ≤ ((basePointsFor d (earningRate cat) : Nat) : Int)
            exact_mod_cast h1
        · exact ht
  | heartbeat uid v c d cat =>
    constructor
    · intro t htl hty
      rw [show applyOp s now (Op.heartbeat uid v c d cat)
          = (recordWatchHeartbeat s uid v c d cat now).1 from rfl,
        heartbeat_ledger] at htl
      exact hl t htl hty
    · intro r htr hty
      rw [show applyOp s now (Op.heartbeat uid v c d cat)
          = (recordWatchHeartbeat s uid v c d cat now).1 from rfl] at htr
      rcases heartbeat_transactions_char s uid v c d cat now with hc | ⟨row, hc, _, hra⟩
      · rw [hc] at htr
        exact ht r htr hty
      · rw [hc] at htr
        rcases List.mem_append.mp htr with hm | hm
        · exact ht r hm hty
        · have ht2 := hm
          simp only [List.mem_singleton] at ht2
          rw [ht2]
          exact hra
  | sweep =>
    constructor
    · intro t htl hty
      rw [show applyOp s now Op.sweep
          = (s.ledger_transactions.filter (maturable now)).foldl (matureOne now) s
          from rfl, foldlMature_ledger] at htl
      obtain ⟨t0, ht0, rfl⟩ := List.mem_map.mp htl
      have hpts : (setAvailIfMatched (s.ledger_transactions.filter (maturable now)) t0).points
          = t0.points := by
        by_cases hm : (s.ledger_transactions.filter (maturable now)).any
            (fun tr => tr.id == t0.id) <;> simp [setAvailIfMatched, hm]
      have htyp :
          (setAvailIfMatched (s.ledger_transactions.filter (maturable now)) t0).transaction_type
          = t0.transaction_type := by
        by_cases hm : (s.ledger_transactions.filter (maturable now)).any
            (fun tr => tr.id == t0.id) <;> simp [setAvailIfMatched, hm]
      rw [hpts]
      exact hl t0 ht0 (htyp ▸ hty)
    · intro r htr hty
      rw [show applyOp s now Op.sweep
          = (s.ledger_transactions.filter (maturable now)).foldl (matureOne now) s
          from rfl, foldlMature_transactions] at htr
      exact ht r htr hty
  | redeem uid p tg =>
    rw [show applyOp s now (Op.redeem uid p tg)
        = (redeemPointsController s (some uid) p tg now).1 from rfl, redeemCtrl_fst]
    by_cases hcond : ¬(p = 0 ∨ tg = false) ∧ ¬(p < 100) ∧
        redeemBalanceCheck s uid p = true
    · rw [if_pos hcond]
      constructor
      · intro t htl hty
        rw [redeemWrite_ledger] at htl
        rcases List.mem_append.mp htl with hm | hm
        · exact hl t hm hty
        · have ht2 := hm
          simp only [List.mem_singleton] at ht2
          rw [ht2] at hty
          cases hty
      · exact ht
    · rw [if_neg hcond]
      exact ⟨hl, ht⟩

theorem run_preserves_earnPositive :
    ∀ (tr : List (Int × Op)) (s : DBState),
      EarnPositive s → EarnPositive (run s tr) := by
  intro tr
  induction tr with
  | nil => intro s h; exact h
  | cons e rest ih =>
    intro s h
    obtain ⟨t, op⟩ := e
    exact ih (applyOp s t op) (applyOp_preserves_earnPositive s t op h)

/-- C10: from any state whose earn credits are all positive (e.g. the empty
store), every EARN row the operations append stays at least 1 point: the
earning paths return without inserting when the computed points are zero,
so every EARN credit in `ledger_transactions` — and every heartbeat earn
row in `transactions` — carries at least one point. -/
theorem earn_entries_strictly_positive (s0 : DBState) (tr : List (Int × Op))
    (h0 : EarnPositive s0) :
    (∀ t ∈ (run s0 tr).ledger_transactions, t.transaction_type = TxType.EARN →
        1 ≤ t.points) ∧
    (∀ r ∈ (run s0 tr).transactions, r.txn_type = "earn" → 1 ≤ r.amount) :=
  run_preserves_earnPositive tr s0 h0

def c10Trace : List (Int × Op) :=
  [(0, Op.watchEvent 1 10 20 600 Category.FINANCE),
   (0, Op.heartbeat 1 11 20 600 Category.ENTERTAINMENT)]

/-- The EARN ledger row `c10Trace` produces. -/
def c10Entry : LedgerTransaction :=
  { id := 0
    user_id := 1
    video_id := some 10
    creator_id := some 20
    transaction_type := TxType.EARN
    points := 500
    category := some Category.FINANCE
    watch_duration_seconds := some 600
    rate_per_10m := some 500
    status := TxStatus.POSTED
    posted_at := 0
    available_at := some HOLDING_PERIOD_MS
    expires_at := some (HOLDING_PERIOD_MS + EXPIRY_WINDOW_MS)
    reason := "Video watched"
    created_at := 0 }

/-- The heartbeat `transactions` row `c10Trace` produces. -/
def c10Row : HbTransaction :=
  { id := 1
    user_id := 1
    txn_type := "earn"
    amount := 100
    video_id := 11
    created_at := 0
    metadata := { base_points := 100
                  multiplier := 1
                  tier := "none"
                  watch_duration_seconds := 600
                  category := Category.ENTERTAINMENT
                  heartbeat := true } }

/-- C10 (witness): positivity of the concrete EARN row and heartbeat row
produced by an earn-plus-heartbeat trace. -/
theorem earn_entries_strictly_positive_witness :
    (1 : Int) ≤ c10Entry.points ∧ (1 : Int) ≤ c10Row.amount := by
  have h := earn_entries_strictly_positive oneUserState c10Trace (by decide)
  exact ⟨h.1 c10Entry (by decide) (by decide), h.2 c10Row (by decide) (by decide)⟩

end WiseReels
